import Mathlib

set_option maxRecDepth 100000

/-
Formal model of the ELVL binary decoding subsystem of plushmonkey/plume
(src/elvl.rs and src/map.rs).

Modelling conventions:
- Bytes are `Nat` values (< 256 in every real input); byte slices are `List Nat`.
- Rust `String` values are modelled as their UTF-8 byte sequences (`List Nat`);
  `std::str::from_utf8` is modelled by the `validUtf8` predicate, which follows
  the UTF-8 ranges accepted by the Rust standard library validator.
- `u16` arithmetic in `Region::parse_data` is modelled checked, as in Rust debug
  builds: an addition reaching 2^16 or a subtraction below 0 is an arithmetic
  overflow, i.e. a panic.  `chkAdd`/`chkSub` return `none` in that case.
- A Rust panic (arithmetic overflow, out-of-bounds index, out-of-bounds slice,
  `unwrap` on an `Err`) is modelled by a dedicated `panicked` outcome,
  distinct from an `anyhow` error result.
- The `BitSet` of flattened tile indices is modelled as `Finset Nat`.
-/

/-- Corresponds to the error results produced with `anyhow!` / `?` in the
source; the constructor names follow the spec's `LoadError` naming.
`truncatedRunRecord` is the error at elvl.rs:120/142/165, `malformedAttribute`
the error at elvl.rs:296, `invalidUtf8` the `Utf8Error` propagated by `?` at
elvl.rs:286-287. -/
inductive LoadErr where
  | truncatedRunRecord
  | malformedAttribute
  | invalidUtf8
deriving DecidableEq

/-- `Region` from elvl.rs:48-53.  `name` holds the UTF-8 bytes of the Rust
`String`; `tiles` is the `BitSet` of flattened indices. -/
structure Region where
  name : List Nat
  flags : Nat
  tiles : Finset Nat
  tile_count : Nat
deriving DecidableEq

/-- `Region::empty` (elvl.rs:56-63). -/
def Region.empty : Region := ⟨[], 0, ∅, 0⟩

/-- `Region::get_index` (elvl.rs:215-217): flattened index `y * 1024 + x`
(computed in `usize`, which cannot overflow for `u16` arguments). -/
def Region.get_index (x y : Nat) : Nat := y * 1024 + x

/-- `Region::set_tile` (elvl.rs:64-70): `BitSet::insert` returns whether the
value was newly inserted; the count is incremented only in that case. -/
def Region.set_tile (r : Region) (x y : Nat) : Region :=
  if Region.get_index x y ∈ r.tiles then r
  else { r with tiles := insert (Region.get_index x y) r.tiles,
                tile_count := r.tile_count + 1 }

/-- `Region::in_region` (elvl.rs:72-76). -/
def Region.in_region (r : Region) (x y : Nat) : Bool :=
  decide (Region.get_index x y ∈ r.tiles)

/-- Checked `u16` addition: Rust debug-build `a + b` on `u16` panics when the
result does not fit; `none` models that panic. -/
def chkAdd (a b : Nat) : Option Nat :=
  if a + b < 65536 then some (a + b) else none

/-- Checked `u16` subtraction: Rust debug-build `a - b` on `u16` panics when
`b > a`; `none` models that panic. -/
def chkSub (a b : Nat) : Option Nat :=
  if b ≤ a then some (a - b) else none

/-- Short run length `(data[0] & 0x1F) + 1` (kinds 0, 2, 4, 6). -/
def shortRun (b : Nat) : Nat := b % 32 + 1

/-- Long run length `(((data[0] as u16 & 3) << 8) | (data[1] as u16)) + 1`
(kinds 1, 3, 5, 7). -/
def longRun (b b1 : Nat) : Nat := ((b % 4 * 256) ||| b1) + 1

/-- The `advance` closure of `Region::parse_data` (elvl.rs:100-107):
`coord.0 += run; if coord.0 >= 1024 { coord.0 = 0; coord.1 += 1 }`, with both
`u16` additions checked. -/
def advanceCoord (c : Nat × Nat) (run : Nat) : Option (Nat × Nat) :=
  match chkAdd c.1 run with
  | none => none
  | some x =>
    if 1024 ≤ x then
      match chkAdd c.2 1 with
      | none => none
      | some y => some (0, y)
    else some (x, c.2)

/-- The present-run loop of kinds 2 and 3 (elvl.rs:132-134, 147-149):
`for i in 0..run { self.set_tile(coord.0 + i, coord.1) }`, with the `u16`
addition `coord.0 + i` checked. -/
def setRun (r : Region) (x y run : Nat) : Option Region :=
  (List.range run).foldlM (fun s i =>
    match chkAdd x i with
    | none => none
    | some xi => some (s.set_tile xi y)) r

/-- The row-repeat loops of kinds 6 and 7 (elvl.rs:178-184, 194-200):
`for i in 0..run { for x in 0..1024 { if self.in_region(x, coord.1 - 1)
{ self.set_tile(x, coord.1 + i) } } }`, with the `u16` subtraction
`coord.1 - 1` and addition `coord.1 + i` checked. -/
def repeatRows (r : Region) (y run : Nat) : Option Region :=
  (List.range run).foldlM (fun s i =>
    (List.range 1024).foldlM (fun t x =>
      match chkSub y 1 with
      | none => none
      | some ym =>
        if t.in_region x ym then
          match chkAdd y i with
          | none => none
          | some yi => some (t.set_tile x yi)
        else some t) s) r

/-- Outcome of `Region::parse_data`: a successful result carries the mutated
region and the returned cursor; `err` is the `anyhow` error path; `panicked`
models a Rust panic. -/
inductive ParseResult where
  | ok (r : Region) (c : Nat × Nat)
  | err (e : LoadErr)
  | panicked
deriving DecidableEq

/-- `Region::parse_data` (elvl.rs:85-213).  One equation per loop iteration;
`data[0] >> 5` selects the record kind.  Kinds 1, 3 and 5 check
`data.len() < 2` and return the truncation error; kind 7 performs no such
check, so with one byte remaining the access `data[1]` is an out-of-bounds
index, i.e. a panic.  Kinds with `sequence_kind` outside 0..=7 (possible only
for model bytes ≥ 256) fall through the `_ => {}` arm consuming 1 byte. -/
def parseData (r : Region) (c : Nat × Nat) : List Nat → ParseResult
  | [] => .ok r c
  | b :: rest =>
    if b / 32 = 0 then
      match advanceCoord c (shortRun b) with
      | none => .panicked
      | some c2 => parseData r c2 rest
    else if b / 32 = 1 then
      match rest with
      | [] => .err .truncatedRunRecord
      | b1 :: rest2 =>
        match advanceCoord c (longRun b b1) with
        | none => .panicked
        | some c2 => parseData r c2 rest2
    else if b / 32 = 2 then
      match setRun r c.1 c.2 (shortRun b) with
      | none => .panicked
      | some r2 =>
        match advanceCoord c (shortRun b) with
        | none => .panicked
        | some c2 => parseData r2 c2 rest
    else if b / 32 = 3 then
      match rest with
      | [] => .err .truncatedRunRecord
      | b1 :: rest2 =>
        match setRun r c.1 c.2 (longRun b b1) with
        | none => .panicked
        | some r2 =>
          match advanceCoord c (longRun b b1) with
          | none => .panicked
          | some c2 => parseData r2 c2 rest2
    else if b / 32 = 4 then
      match chkAdd c.2 (shortRun b) with
      | none => .panicked
      | some y2 => parseData r (0, y2) rest
    else if b / 32 = 5 then
      match rest with
      | [] => .err .truncatedRunRecord
      | b1 :: rest2 =>
        match chkAdd c.2 (longRun b b1) with
        | none => .panicked
        | some y2 => parseData r (0, y2) rest2
    else if b / 32 = 6 then
      match repeatRows r c.2 (shortRun b) with
      | none => .panicked
      | some r2 =>
        match chkAdd c.2 (shortRun b) with
        | none => .panicked
        | some y2 => parseData r2 (0, y2) rest
    else if b / 32 = 7 then
      match rest with
      | [] => .panicked
      | b1 :: rest2 =>
        match repeatRows r c.2 (longRun b b1) with
        | none => .panicked
        | some r2 =>
          match chkAdd c.2 (longRun b b1) with
          | none => .panicked
          | some y2 => parseData r2 (0, y2) rest2
    else parseData r c rest

/-- `Region::parse_data` with an explicit bound on the number of loop
iterations: `none` means the bound was exhausted with input remaining.
Identical to `parseData` otherwise; used to state that the loop finishes
within `data.length` iterations. -/
def parseDataFuel : Nat → Region → (Nat × Nat) → List Nat → Option ParseResult
  | _, r, c, [] => some (.ok r c)
  | 0, _, _, _ :: _ => none
  | fuel + 1, r, c, b :: rest =>
    if b / 32 = 0 then
      match advanceCoord c (shortRun b) with
      | none => some .panicked
      | some c2 => parseDataFuel fuel r c2 rest
    else if b / 32 = 1 then
      match rest with
      | [] => some (.err .truncatedRunRecord)
      | b1 :: rest2 =>
        match advanceCoord c (longRun b b1) with
        | none => some .panicked
        | some c2 => parseDataFuel fuel r c2 rest2
    else if b / 32 = 2 then
      match setRun r c.1 c.2 (shortRun b) with
      | none => some .panicked
      | some r2 =>
        match advanceCoord c (shortRun b) with
        | none => some .panicked
        | some c2 => parseDataFuel fuel r2 c2 rest
    else if b / 32 = 3 then
      match rest with
      | [] => some (.err .truncatedRunRecord)
      | b1 :: rest2 =>
        match setRun r c.1 c.2 (longRun b b1) with
        | none => some .panicked
        | some r2 =>
          match advanceCoord c (longRun b b1) with
          | none => some .panicked
          | some c2 => parseDataFuel fuel r2 c2 rest2
    else if b / 32 = 4 then
      match chkAdd c.2 (shortRun b) with
      | none => some .panicked
      | some y2 => parseDataFuel fuel r (0, y2) rest
    else if b / 32 = 5 then
      match rest with
      | [] => some (.err .truncatedRunRecord)
      | b1 :: rest2 =>
        match chkAdd c.2 (longRun b b1) with
        | none => some .panicked
        | some y2 => parseDataFuel fuel r (0, y2) rest2
    else if b / 32 = 6 then
      match repeatRows r c.2 (shortRun b) with
      | none => some .panicked
      | some r2 =>
        match chkAdd c.2 (shortRun b) with
        | none => some .panicked
        | some y2 => parseDataFuel fuel r2 (0, y2) rest
    else if b / 32 = 7 then
      match rest with
      | [] => some .panicked
      | b1 :: rest2 =>
        match repeatRows r c.2 (longRun b b1) with
        | none => some .panicked
        | some r2 =>
          match chkAdd c.2 (longRun b b1) with
          | none => some .panicked
          | some y2 => parseDataFuel fuel r2 (0, y2) rest2
    else parseDataFuel fuel r c rest

/-- UTF-8 validity of a byte sequence, following the ranges accepted by the
Rust standard library validator (`std::str::from_utf8`): ASCII; C2-DF + 1
continuation; E0 A0-BF, E1-EC 80-BF, ED 80-9F, EE-EF 80-BF + 1 continuation;
F0 90-BF, F1-F3 80-BF, F4 80-8F + 2 continuations. -/
def validUtf8 : List Nat → Bool
  | [] => true
  | b :: rest =>
    if b ≤ 0x7F then validUtf8 rest
    else if b ≤ 0xC1 then false
    else if b ≤ 0xDF then
      match rest with
      | [] => false
      | c :: rest2 => decide (0x80 ≤ c ∧ c ≤ 0xBF) && validUtf8 rest2
    else if b ≤ 0xEF then
      match rest with
      | c :: d :: rest3 =>
        decide ((if b = 0xE0 then 0xA0 else 0x80) ≤ c
                 ∧ c ≤ (if b = 0xED then 0x9F else 0xBF))
          && decide (0x80 ≤ d ∧ d ≤ 0xBF) && validUtf8 rest3
      | _ => false
    else if b ≤ 0xF4 then
      match rest with
      | c :: d :: e :: rest4 =>
        decide ((if b = 0xF0 then 0x90 else 0x80) ≤ c
                 ∧ c ≤ (if b = 0xF4 then 0x8F else 0xBF))
          && decide (0x80 ≤ d ∧ d ≤ 0xBF) && decide (0x80 ≤ e ∧ e ≤ 0xBF)
          && validUtf8 rest4
      | _ => false
    else false

/-- `Attribute` (elvl.rs:35-38); the `String` fields are modelled as their
UTF-8 bytes. -/
structure Attribute where
  key : List Nat
  value : List Nat
deriving DecidableEq

/-- `payload.splitn(2, |c| *c == b'=')` (elvl.rs:280): `none` when the payload
contains no `=` (byte 61), otherwise the bytes before the first `=` and all
bytes after it. -/
def splitFirstEq : List Nat → Option (List Nat × List Nat)
  | [] => none
  | b :: rest =>
    if b = 61 then some ([], rest)
    else
      match splitFirstEq rest with
      | none => none
      | some (k, v) => some (b :: k, v)

/-- The `ATTR` chunk body (elvl.rs:278-298): split at the first `=`; a missing
`=` is the `MalformedAttribute` error; both parts must be valid UTF-8 (the
`Utf8Error` is propagated with the `?` operator, key first). -/
def parseAttr (payload : List Nat) : Except LoadErr Attribute :=
  match splitFirstEq payload with
  | none => .error .malformedAttribute
  | some (k, v) =>
    if validUtf8 k then
      if validUtf8 v then .ok ⟨k, v⟩ else .error .invalidUtf8
    else .error .invalidUtf8

/-- `u32::from_le_bytes` on four bytes. -/
def leU32 (b0 b1 b2 b3 : Nat) : Nat :=
  b0 + b1 * 256 + b2 * 65536 + b3 * 16777216

/-- The region sub-chunk loop of `elvl_read` (elvl.rs:309-349): iterate while
strictly more than 8 bytes remain; read the 8-byte sub-chunk header; the
payload slice `&region_data[8..8 + chunk_size]` panics when it overruns the
remaining bytes, as does the advance `&region_data[total_chunk_size..]`.
`rNAM` calls `from_utf8(..).unwrap()`, a panic on invalid UTF-8; `rTIL`
threads the running cursor through `Region::parse_data`; the four flag tags
OR one bit each; other tags are skipped. -/
def readRegionLoop (r : Region) (c : Nat × Nat) (d : List Nat) : ParseResult :=
  if _h1 : d.length ≤ 8 then .ok r c
  else
    let kind := leU32 (d.getD 0 0) (d.getD 1 0) (d.getD 2 0) (d.getD 3 0)
    let cs := leU32 (d.getD 4 0) (d.getD 5 0) (d.getD 6 0) (d.getD 7 0)
    if _h2 : 8 + cs ≤ d.length then
      let payload := (d.drop 8).take cs
      let step : ParseResult ⊕ (Region × (Nat × Nat)) :=
        if kind = 0x4D414E72 then
          if validUtf8 payload then .inr ({ r with name := payload }, c)
          else .inl .panicked
        else if kind = 0x4C495472 then
          match parseData r c payload with
          | .ok r2 c2 => .inr (r2, c2)
          | .err e => .inl (.err e)
          | .panicked => .inl .panicked
        else if kind = 0x45534272 then .inr ({ r with flags := r.flags ||| 1 }, c)
        else if kind = 0x57414E72 then .inr ({ r with flags := r.flags ||| 2 }, c)
        else if kind = 0x50574E72 then .inr ({ r with flags := r.flags ||| 4 }, c)
        else if kind = 0x4C464E72 then .inr ({ r with flags := r.flags ||| 8 }, c)
        else .inr (r, c)
      match step with
      | .inl out => out
      | .inr (r2, c2) =>
        if h3 : 8 + (cs + 3) / 4 * 4 ≤ d.length then
          readRegionLoop r2 c2 (d.drop (8 + (cs + 3) / 4 * 4))
        else .panicked
    else .panicked
termination_by d.length
decreasing_by
  simp only [List.length_drop]
  omega

/-- Result of reading one `REGN` payload. -/
inductive RegionRead where
  | ok (r : Region)
  | err (e : LoadErr)
  | panicked
deriving DecidableEq

/-- The `REGN` chunk body (elvl.rs:299-352): a fresh `Region::empty` and a
cursor starting at `(0, 0)`, run through the sub-chunk loop; the final cursor
is discarded. -/
def readRegion (payload : List Nat) : RegionRead :=
  match readRegionLoop Region.empty (0, 0) payload with
  | .ok r _ => .ok r
  | .err e => .err e
  | .panicked => .panicked

/-- `Chunk` (elvl.rs:220-235); payloads and the DCME id are bytes/values. -/
inductive Chunk where
  | attr (a : Attribute)
  | region (r : Region)
  | tileset
  | tile
  | dcmeId (v : Nat)
  | dcmeWallTiles
  | dcmeTextTiles
  | dcmeBookmarks
  | dcmeLvz
  | other (kind : Nat) (payload : List Nat)
deriving DecidableEq

/-- Outcome of `elvl_read`. -/
inductive ElvlRead where
  | ok (chunks : List Chunk)
  | err (e : LoadErr)
  | panicked
deriving DecidableEq

/-- The top-level chunk loop of `elvl_read` (elvl.rs:273-363): iterate while
at least 8 bytes remain and `consumed < total_size`.  The payload slice
`&data[8..8 + chunk_header.size]` is NOT guarded by a length check, so a
declared size overrunning the remaining bytes is an out-of-bounds slice, i.e.
a panic; likewise the advance `&data[total_chunk_size..]`.  `ATTR` and `REGN`
dispatch to their bodies; any other tag is preserved verbatim. -/
def chunkLoop (acc : List Chunk) (d : List Nat) (consumed total : Nat) : ElvlRead :=
  if _h1 : d.length < 8 ∨ total ≤ consumed then .ok acc
  else
    let kind := leU32 (d.getD 0 0) (d.getD 1 0) (d.getD 2 0) (d.getD 3 0)
    let size := leU32 (d.getD 4 0) (d.getD 5 0) (d.getD 6 0) (d.getD 7 0)
    if _h2 : 8 + size ≤ d.length then
      let payload := (d.drop 8).take size
      let step : ElvlRead ⊕ Chunk :=
        if kind = 0x52545441 then
          match parseAttr payload with
          | .error e => .inl (.err e)
          | .ok a => .inr (.attr a)
        else if kind = 0x4E474552 then
          match readRegion payload with
          | .ok r => .inr (.region r)
          | .err e => .inl (.err e)
          | .panicked => .inl .panicked
        else .inr (.other kind payload)
      match step with
      | .inl out => out
      | .inr ch =>
        if h3 : 8 + (size + 3) / 4 * 4 ≤ d.length then
          chunkLoop (acc ++ [ch]) (d.drop (8 + (size + 3) / 4 * 4))
            (consumed + (8 + (size + 3) / 4 * 4)) total
        else .panicked
    else .panicked
termination_by d.length
decreasing_by
  simp only [List.length_drop]
  omega

/-- `elvl_read` (elvl.rs:237-366): locate the metadata container via the
bitmap header's stored offset, check the `elvl` magic, then run the chunk
loop over the bytes after the 12-byte metadata header with
`consumed = 12`. -/
def elvl_read (data : List Nat) : ElvlRead :=
  if data.length < 10 then .ok []
  else if ¬(data.getD 0 0 = 66 ∧ data.getD 1 0 = 77) then .ok []
  else
    let mo := leU32 (data.getD 6 0) (data.getD 7 0) (data.getD 8 0) (data.getD 9 0)
    if mo = 0 then .ok []
    else if data.length < mo + 12 then .ok []
    else if ¬(leU32 (data.getD mo 0) (data.getD (mo + 1) 0) (data.getD (mo + 2) 0)
               (data.getD (mo + 3) 0) = 0x6c766c65) then .ok []
    else
      chunkLoop [] (data.drop (mo + 12)) 12
        (leU32 (data.getD (mo + 4) 0) (data.getD (mo + 5) 0) (data.getD (mo + 6) 0)
          (data.getD (mo + 7) 0))

/-- `ReadTile::x` (map.rs:24-26): low 12 bits. -/
def readTileX (v : Nat) : Nat := v % 4096

/-- `ReadTile::y` (map.rs:28-30): bits 12..24. -/
def readTileY (v : Nat) : Nat := v / 4096 % 4096

/-- `ReadTile::id` (map.rs:32-34): bits 24..32. -/
def readTileId (v : Nat) : Nat := v / 16777216 % 256

/-- The tile-grid decode loop of `Map::load` (map.rs:89-101): one 4-byte
little-endian record per iteration until fewer than 4 bytes remain; the write
`map.tiles[index] = tile.id()` indexes a `Box<[TileId; 1024 * 1024]>`, so an
index at or beyond `1024 * 1024` is an out-of-bounds index, i.e. a panic
(modelled by `none`).  There is no error return on this path.  The grid is
modelled as the flattened-index function `Nat → Nat`, initially all 0. -/
def loadTileData (td : List Nat) : Option (Nat → Nat) :=
  (List.range (td.length / 4)).foldlM (fun g i =>
    let v := leU32 (td.getD (4 * i) 0) (td.getD (4 * i + 1) 0)
      (td.getD (4 * i + 2) 0) (td.getD (4 * i + 3) 0)
    let index := readTileY v * 1024 + readTileX v
    if index < 1024 * 1024 then some (Function.update g index (readTileId v))
    else none) (fun _ => 0)

/-- `applySetTiles r ops` performs the sequence of `Region::set_tile` calls
`ops` (in order) on `r`. -/
def applySetTiles (r : Region) (ops : List (Nat × Nat)) : Region :=
  ops.foldl (fun s p => s.set_tile p.1 p.2) r

/-- Helper: `set_tile` on a cell whose index is not yet present inserts the
index and increments the count. -/
theorem set_tile_fresh (r : Region) (x y : Nat) (h : Region.get_index x y ∉ r.tiles) :
    r.set_tile x y = ⟨r.name, r.flags, insert (Region.get_index x y) r.tiles, r.tile_count + 1⟩ := by
  simp [Region.set_tile, h]

/-- Helper: evaluation of the kind-2 present-run loop for run 5 starting at
x = 1022: the five inserted flattened indices are `y*1024 + 1022 .. y*1024 + 1026`,
the last three of which are the flattened indices of `(0, y+1)`, `(1, y+1)`,
`(2, y+1)`. -/
theorem setRun_wrap (y : Nat) :
    setRun Region.empty 1022 y 5 =
      some ⟨[], 0, insert (y*1024+1026) (insert (y*1024+1025) (insert (y*1024+1024)
        (insert (y*1024+1023) (insert (y*1024+1022) ∅)))), 5⟩ := by
  have h5 : List.range 5 = [0, 1, 2, 3, 4] := rfl
  have s1 : Region.empty.set_tile 1022 y = ⟨[], 0, insert (y*1024+1022) ∅, 1⟩ := by
    rw [set_tile_fresh _ _ _ (by simp [Region.empty])]
    rfl
  have s2 : (⟨[], 0, insert (y*1024+1022) ∅, 1⟩ : Region).set_tile 1023 y
      = ⟨[], 0, insert (y*1024+1023) (insert (y*1024+1022) ∅), 2⟩ := by
    rw [set_tile_fresh _ _ _ (by simp [Region.get_index, Finset.mem_insert])]
    rfl
  have s3 : (⟨[], 0, insert (y*1024+1023) (insert (y*1024+1022) ∅), 2⟩ : Region).set_tile 1024 y
      = ⟨[], 0, insert (y*1024+1024) (insert (y*1024+1023) (insert (y*1024+1022) ∅)), 3⟩ := by
    rw [set_tile_fresh _ _ _ (by simp [Region.get_index, Finset.mem_insert])]
    rfl
  have s4 : (⟨[], 0, insert (y*1024+1024) (insert (y*1024+1023) (insert (y*1024+1022) ∅)), 3⟩ : Region).set_tile 1025 y
      = ⟨[], 0, insert (y*1024+1025) (insert (y*1024+1024) (insert (y*1024+1023) (insert (y*1024+1022) ∅))), 4⟩ := by
    rw [set_tile_fresh _ _ _ (by simp [Region.get_index, Finset.mem_insert])]
    rfl
  have s5 : (⟨[], 0, insert (y*1024+1025) (insert (y*1024+1024) (insert (y*1024+1023) (insert (y*1024+1022) ∅))), 4⟩ : Region).set_tile 1026 y
      = ⟨[], 0, insert (y*1024+1026) (insert (y*1024+1025) (insert (y*1024+1024) (insert (y*1024+1023) (insert (y*1024+1022) ∅)))), 5⟩ := by
    rw [set_tile_fresh _ _ _ (by simp [Region.get_index, Finset.mem_insert])]
    rfl
  simp only [setRun, h5, List.foldlM_cons, List.foldlM_nil, chkAdd]
  norm_num
  rw [s1, s2, s3, s4, s5]
  simp [insert_emptyc_eq]

set_option maxHeartbeats 1000000 in
/-- Helper: the loop of `Region::parse_data` finishes within `fuel`
iterations whenever `fuel` is at least the number of input bytes, because
every iteration consumes at least one byte. -/
theorem parseDataFuel_sufficient (fuel : Nat) :
    ∀ (data : List Nat) (r : Region) (c : Nat × Nat), data.length ≤ fuel →
      parseDataFuel fuel r c data = some (parseData r c data) := by
  induction fuel with
  | zero =>
    intro data r c h
    cases data with
    | nil => rfl
    | cons b rest => simp at h
  | succ fuel ih =>
    intro data r c h
    cases data with
    | nil => rfl
    | cons b rest =>
      cases rest with
      | nil =>
        simp only [parseDataFuel, parseData]
        split_ifs
        · cases hA : advanceCoord c (shortRun b) <;> rfl
        · rfl
        · cases hS : setRun r c.1 c.2 (shortRun b) with
          | none => rfl
          | some r2 => cases hA : advanceCoord c (shortRun b) <;> rfl
        · rfl
        · cases hA : chkAdd c.2 (shortRun b) <;> rfl
        · rfl
        · cases hS : repeatRows r c.2 (shortRun b) with
          | none => rfl
          | some r2 => cases hA : chkAdd c.2 (shortRun b) <;> rfl
        · rfl
        · rfl
      | cons b1 rest2 =>
        have hr1 : (b1 :: rest2).length ≤ fuel := by simp at h ⊢; omega
        have hr2 : rest2.length ≤ fuel := by simp at h ⊢; omega
        simp only [parseDataFuel, parseData]
        split_ifs
        · cases hA : advanceCoord c (shortRun b) with
          | none => rfl
          | some c2 => exact ih _ _ _ hr1
        · cases hA : advanceCoord c (longRun b b1) with
          | none => rfl
          | some c2 => exact ih _ _ _ hr2
        · cases hS : setRun r c.1 c.2 (shortRun b) with
          | none => rfl
          | some r2 =>
            cases hA : advanceCoord c (shortRun b) with
            | none => rfl
            | some c2 => exact ih _ _ _ hr1
        · cases hS : setRun r c.1 c.2 (longRun b b1) with
          | none => rfl
          | some r2 =>
            cases hA : advanceCoord c (longRun b b1) with
            | none => rfl
            | some c2 => exact ih _ _ _ hr2
        · cases hA : chkAdd c.2 (shortRun b) with
          | none => rfl
          | some y2 => exact ih _ _ _ hr1
        · cases hA : chkAdd c.2 (longRun b b1) with
          | none => rfl
          | some y2 => exact ih _ _ _ hr2
        · cases hS : repeatRows r c.2 (shortRun b) with
          | none => rfl
          | some r2 =>
            cases hA : chkAdd c.2 (shortRun b) with
            | none => rfl
            | some y2 => exact ih _ _ _ hr1
        · cases hS : repeatRows r c.2 (longRun b b1) with
          | none => rfl
          | some r2 =>
            cases hA : chkAdd c.2 (longRun b b1) with
            | none => rfl
            | some y2 => exact ih _ _ _ hr2
        · exact ih _ _ _ hr1

/-- Helper: `set_tile` preserves the invariant that the count equals the
cardinality of the tile set. -/
theorem set_tile_count_card (r : Region) (x y : Nat) (h : r.tile_count = r.tiles.card) :
    (r.set_tile x y).tile_count = (r.set_tile x y).tiles.card := by
  simp only [Region.set_tile]
  split_ifs with hm
  · exact h
  · simp [Finset.card_insert_of_not_mem hm, h]

/-- Helper: `set_tile` never decreases the count. -/
theorem set_tile_count_mono (r : Region) (x y : Nat) :
    r.tile_count ≤ (r.set_tile x y).tile_count := by
  simp only [Region.set_tile]
  split_ifs <;> simp

/-- Helper: the count-equals-cardinality invariant is preserved by any
sequence of `set_tile` calls. -/
theorem applySetTiles_count_card (ops : List (Nat × Nat)) :
    ∀ (r : Region), r.tile_count = r.tiles.card →
      (applySetTiles r ops).tile_count = (applySetTiles r ops).tiles.card := by
  induction ops with
  | nil => intro r h; exact h
  | cons p ops ih =>
    intro r h
    exact ih _ (set_tile_count_card r p.1 p.2 h)

/-- Helper: the count is monotone across any sequence of `set_tile` calls. -/
theorem applySetTiles_count_mono (ops : List (Nat × Nat)) :
    ∀ (r : Region), r.tile_count ≤ (applySetTiles r ops).tile_count := by
  induction ops with
  | nil => intro r; exact le_refl _
  | cons p ops ih =>
    intro r
    exact le_trans (set_tile_count_mono r p.1 p.2) (ih _)

/-- Helper: `splitn(2, b'=')` on a payload `pre ++ [61] ++ post` with no `=`
in `pre` splits exactly at that first `=`. -/
theorem splitFirstEq_append (pre post : List Nat) (h : (61 : Nat) ∉ pre) :
    splitFirstEq (pre ++ 61 :: post) = some (pre, post) := by
  induction pre with
  | nil => simp [splitFirstEq]
  | cons a pre ih =>
    have ha : a ≠ 61 := by intro e; exact h (e ▸ List.mem_cons_self a pre)
    have h2 : (61 : Nat) ∉ pre := fun e => h (List.mem_cons_of_mem a e)
    simp [splitFirstEq, ha, ih h2]

/-- Helper: a payload without `=` produces no split. -/
theorem splitFirstEq_none (p : List Nat) (h : (61 : Nat) ∉ p) :
    splitFirstEq p = none := by
  induction p with
  | nil => rfl
  | cons a p ih =>
    have ha : a ≠ 61 := by intro e; exact h (e ▸ List.mem_cons_self a p)
    have h2 : (61 : Nat) ∉ p := fun e => h (List.mem_cons_of_mem a e)
    simp [splitFirstEq, ha, ih h2]

/-- Claim C1: the spec asserts that every long-form run record (kinds 1, 3, 5
and 7) with fewer than 2 bytes remaining yields the hard truncation error,
uniformly including kind 7.  On the code, kinds 1, 3 and 5 do return the
truncation error, but kind 7 (byte `0xE0`) omits the length check and indexes
`data[1]` out of bounds — a panic, not an error result.  This theorem
evaluates the decoder at the four one-byte long-form records. -/
theorem c1_long_form_truncation_nonuniform :
    parseData Region.empty (0, 0) [32] = .err .truncatedRunRecord ∧
    parseData Region.empty (0, 0) [96] = .err .truncatedRunRecord ∧
    parseData Region.empty (0, 0) [160] = .err .truncatedRunRecord ∧
    parseData Region.empty (0, 0) [224] = .panicked := by
  decide

/-- Claim C3: the spec asserts that row-repeat records (kinds 6 and 7) at
`y == 0` treat the missing previous row as empty, with no underflow or panic,
advancing the cursor to `(0, run)`.  On the code, `coord.1 - 1` is computed
unconditionally, so at `y = 0` the `u16` subtraction underflows — a panic in
debug builds (in release builds it wraps to row 65535 instead of an empty
previous row).  The contrast conjunct shows the same record at `y = 1`
succeeds with no tiles copied from the empty row 0. -/
theorem c3_row_repeat_y0_underflow :
    parseData Region.empty (0, 0) [192] = .panicked ∧
    parseData Region.empty (0, 0) [224, 0] = .panicked ∧
    parseData Region.empty (0, 1) [192] = .ok Region.empty (0, 2) := by
  decide

/-- Claim C4: decoding a present-run record of length 5 (byte `0x44`) with
the cursor at `(1022, y)` into an empty region makes exactly the cells
`(1022,y)`, `(1023,y)`, `(0,y+1)`, `(1,y+1)`, `(2,y+1)` members of the tile
set, and returns cursor `(0, y+1)`.  The run loop does not wrap `x` per tile,
but the flattened index `y*1024 + x` of `set_tile` aliases `x ≥ 1024` onto
the next row, which realises exactly the claimed single-boundary wrap. -/
theorem c4_present_run_wrap (y : Nat) (h : y < 1023) :
    ∃ r2, parseData Region.empty (1022, y) [68] = .ok r2 (0, y + 1) ∧
      r2.tile_count = 5 ∧
      ∀ x1 y1, x1 < 1024 →
        (r2.in_region x1 y1 = true ↔
          ((x1 = 1022 ∧ y1 = y) ∨ (x1 = 1023 ∧ y1 = y) ∨ (x1 = 0 ∧ y1 = y + 1) ∨
           (x1 = 1 ∧ y1 = y + 1) ∨ (x1 = 2 ∧ y1 = y + 1))) := by
  refine ⟨⟨[], 0, insert (y*1024+1026) (insert (y*1024+1025) (insert (y*1024+1024)
    (insert (y*1024+1023) (insert (y*1024+1022) ∅)))), 5⟩, ?_, rfl, ?_⟩
  · have hadv : advanceCoord (1022, y) 5 = some (0, y + 1) := by
      unfold advanceCoord chkAdd
      norm_num
      rw [if_pos (show y + 1 < 65536 by omega)]
    simp only [parseData]
    norm_num [shortRun]
    rw [setRun_wrap, hadv]
    simp [insert_emptyc_eq]
  · intro x1 y1 hx
    simp only [Region.in_region, Region.get_index, Finset.mem_insert, Finset.not_mem_empty,
      decide_eq_true_eq, or_false]
    omega

/-- Witness for C4: the property of `c4_present_run_wrap` at `y = 0`. -/
theorem c4_present_run_wrap_witness :
    (0 : Nat) < 1023 ∧
    (∃ r2, parseData Region.empty (1022, 0) [68] = .ok r2 (0, 0 + 1) ∧
      r2.tile_count = 5 ∧
      ∀ x1 y1, x1 < 1024 →
        (r2.in_region x1 y1 = true ↔
          ((x1 = 1022 ∧ y1 = 0) ∨ (x1 = 1023 ∧ y1 = 0) ∨ (x1 = 0 ∧ y1 = 0 + 1) ∨
           (x1 = 1 ∧ y1 = 0 + 1) ∨ (x1 = 2 ∧ y1 = 0 + 1)))) :=
  ⟨by decide, c4_present_run_wrap 0 (by decide)⟩

/-- Claim C8: `tile_count` equals the number of distinct cells in the tile
set after any sequence of `set_tile` insertions that starts from a region
satisfying that invariant; the count is monotone, and inserting an
already-present cell changes neither the set nor the count (`set_tile` is the
identity there). -/
theorem c8_tile_count_invariant (r : Region) (ops : List (Nat × Nat)) (x y : Nat)
    (h : r.tile_count = r.tiles.card) :
    (applySetTiles r ops).tile_count = (applySetTiles r ops).tiles.card ∧
    r.tile_count ≤ (applySetTiles r ops).tile_count ∧
    (r.in_region x y = true → r.set_tile x y = r) := by
  refine ⟨applySetTiles_count_card ops r h, applySetTiles_count_mono ops r, ?_⟩
  intro hin
  simp only [Region.in_region, decide_eq_true_eq] at hin
  simp [Region.set_tile, hin]

/-- Witness for C8: the invariant instantiated on the empty region with a
duplicate insertion sequence. -/
theorem c8_tile_count_invariant_witness :
    (applySetTiles Region.empty [(3, 4), (3, 4), (9, 4)]).tile_count =
      (applySetTiles Region.empty [(3, 4), (3, 4), (9, 4)]).tiles.card ∧
    Region.empty.tile_count ≤ (applySetTiles Region.empty [(3, 4), (3, 4), (9, 4)]).tile_count ∧
    (Region.empty.in_region 3 4 = true → Region.empty.set_tile 3 4 = Region.empty) :=
  c8_tile_count_invariant Region.empty [(3, 4), (3, 4), (9, 4)] 3 4 rfl

/-- Claim C9: the region sub-chunk reader iterates only while strictly more
than 8 bytes remain, so a `REGN` payload that is exactly one 8-byte sub-chunk
header with no payload is not processed: the resulting region is
`Region::empty`, whose `flags` are 0. -/
theorem c9_region_subchunk_guard (p : List Nat) (h : p.length = 8) :
    readRegion p = .ok Region.empty ∧ Region.empty.flags = 0 := by
  refine ⟨?_, rfl⟩
  unfold readRegion readRegionLoop
  rw [dif_pos (by omega)]

/-- Witness for C9: an 8-byte payload consisting of exactly one `rBSE`
sub-chunk header with declared size 0. -/
theorem c9_region_subchunk_guard_witness :
    readRegion [114, 66, 83, 69, 0, 0, 0, 0] = .ok Region.empty ∧ Region.empty.flags = 0 :=
  c9_region_subchunk_guard [114, 66, 83, 69, 0, 0, 0, 0] rfl

/-- Claim C10: `Region::parse_data` terminates on every input: each loop
iteration consumes at least 1 byte (records consume 1 or 2 bytes), so the
loop finishes within `data.length` iterations: the iteration-bounded
`parseDataFuel` never exhausts a bound of at least `data.length` and agrees
with the decoder's result. -/
theorem c10_parse_data_terminates (data : List Nat) (r : Region) (c : Nat × Nat)
    (fuel : Nat) (h : data.length ≤ fuel) :
    parseDataFuel fuel r c data = some (parseData r c data) :=
  parseDataFuel_sufficient fuel data r c h

/-- Witness for C10: the bound instantiated on a one-byte record. -/
theorem c10_parse_data_terminates_witness :
    parseDataFuel 1 Region.empty (0, 0) [0] = some (parseData Region.empty (0, 0) [0]) :=
  c10_parse_data_terminates [0] Region.empty (0, 0) 1 (by decide)

/-- Claim C2: the spec asserts that a top-level chunk whose declared payload
overruns the remaining bytes stops iteration gracefully.  On the code, only
the `remaining < 8` half holds (second conjunct: 7 trailing bytes after the
metadata header are ignored without error).  When 8 bytes remain but the
header declares payload size 1, the unguarded slice
`&data[8..8 + chunk_header.size]` overruns the buffer — a panic, not a
graceful stop (first conjunct). -/
theorem c2_truncated_chunk_panics :
    elvl_read [66, 77, 0, 0, 0, 0, 10, 0, 0, 0, 101, 108, 118, 108, 100, 0, 0, 0,
      0, 0, 0, 0, 0, 0, 0, 0, 1, 0, 0, 0] = .panicked ∧
    elvl_read [66, 77, 0, 0, 0, 0, 10, 0, 0, 0, 101, 108, 118, 108, 100, 0, 0, 0,
      0, 0, 0, 0, 1, 2, 3, 4, 5, 6, 7] = .ok [] := by
  constructor
  · unfold elvl_read
    norm_num [leU32, List.getD]
    unfold chunkLoop
    norm_num [leU32, List.getD]
  · unfold elvl_read
    norm_num [leU32, List.getD]
    unfold chunkLoop
    norm_num

/-- Claim C5: the spec asserts that a tile-grid record addressing a cell
outside the 1024 x 1024 grid makes `Map::load` return
`LoadError::TileOutOfBounds`.  The code has no such error path: a record with
`y = 1024, x = 0` (bytes `[0,0,64,0]`, flattened index 1048576) indexes the
`Box<[TileId; 1048576]>` out of bounds — a panic (first conjunct) — and a
record with `x = 1024, y = 0, id = 7` (bytes `[0,4,0,7]`, flattened index
1024) is silently stored at the aliased in-range cell `(0, 1)` (second and
third conjuncts). -/
theorem c5_tile_grid_out_of_bounds :
    loadTileData [0, 0, 64, 0] = none ∧
    loadTileData [0, 4, 0, 7] = some (Function.update (fun _ => 0) 1024 7) ∧
    Function.update (fun _ => (0 : Nat)) 1024 7 (1 * 1024 + 0) = 7 :=
  ⟨rfl, rfl, rfl⟩

/-- Claim C6: the spec asserts that an `rNAM` sub-chunk with an invalid-UTF-8
payload yields a hard error result and never panics.  On the code, the `rNAM`
arm calls `from_utf8(..).unwrap()`, which panics on invalid UTF-8 (first
conjunct, payload `FF FF FF FF`); for valid UTF-8 the bytes do become
`Region.name` (second conjunct, payload `Test`). -/
theorem c6_rnam_invalid_utf8 :
    readRegion [114, 78, 65, 77, 4, 0, 0, 0, 255, 255, 255, 255] = .panicked ∧
    readRegion [114, 78, 65, 77, 4, 0, 0, 0, 84, 101, 115, 116] =
      .ok ⟨[84, 101, 115, 116], 0, ∅, 0⟩ := by
  constructor
  · unfold readRegion readRegionLoop
    norm_num [leU32, List.getD, show validUtf8 [255, 255, 255, 255] = false from by decide]
  · unfold readRegion readRegionLoop
    norm_num [leU32, List.getD, show validUtf8 [84, 101, 115, 116] = true from by decide]
    unfold readRegionLoop
    norm_num [Region.empty]

/-- Claim C7: an `ATTR` payload containing `=` splits at the first `=` into
key and value (later `=` bytes stay in the value), both required to be valid
UTF-8 (otherwise the invalid-UTF-8 error); a payload with no `=` yields the
malformed-attribute error; and `Name=Test` parses to key `Name`, value
`Test`. -/
theorem c7_attr_split (pre post p : List Nat) (h1 : (61 : Nat) ∉ pre) (h2 : (61 : Nat) ∉ p) :
    (parseAttr (pre ++ 61 :: post) =
      if validUtf8 pre then
        if validUtf8 post then .ok ⟨pre, post⟩ else .error .invalidUtf8
      else .error .invalidUtf8) ∧
    parseAttr p = .error .malformedAttribute ∧
    parseAttr [78, 97, 109, 101, 61, 84, 101, 115, 116] =
      .ok ⟨[78, 97, 109, 101], [84, 101, 115, 116]⟩ := by
  refine ⟨?_, ?_, rfl⟩
  · rw [parseAttr, splitFirstEq_append pre post h1]
  · rw [parseAttr, splitFirstEq_none p h2]

/-- Witness for C7: the split property at key `K` (byte 75), value `V=`-free
`V` (byte 86), and the no-equals payload `No` (bytes 78, 111). -/
theorem c7_attr_split_witness :
    (parseAttr ([75] ++ 61 :: [86]) =
      if validUtf8 [75] then
        if validUtf8 [86] then .ok ⟨[75], [86]⟩ else .error .invalidUtf8
      else .error .invalidUtf8) ∧
    parseAttr [78, 111] = .error .malformedAttribute ∧
    parseAttr [78, 97, 109, 101, 61, 84, 101, 115, 116] =
      .ok ⟨[78, 97, 109, 101], [84, 101, 115, 116]⟩ :=
  c7_attr_split [75] [86] [78, 111] (by decide) (by decide)
